import Mathlib

/-!
Verification of the index-atom layer of the ndindex repository
(`src/ndindex/ndindex.py`): the `NDIndex` base class, the `Slice`
constructor with its canonicalization, and the `Integer` constructor.

The embedding models Python integers as `Int`, absent (`None`) arguments as
`Option Int`, and the two error signals the constructors can raise.  The
selection semantics of a raw slice / integer index on one axis (which live in
the external array library, out of scope of the source) are modelled from the
spec where a claim needs them.
-/

/-- The error signals raised by the constructors: `badStep` is the
`ValueError("slice step cannot be zero")` of `Slice.__new__` (line 27), and
`badIndex` is the `TypeError` that `operator.index` raises on a value that is
not integer-convertible (spec taxonomy: BadStep, BadIndex). -/
inductive Err where
  | badStep
  | badIndex
  deriving DecidableEq, Repr

/-- A constructed index value: the `Integer` variant stores its single coerced
integer (`args = (idx,)`), the `Slice` variant stores its canonical triple
(`args = (start, stop, step)`), each component possibly `None` as far as the
type is concerned (the code never stores `None` for step, which is proved, not
assumed). -/
inductive NDIndexVal where
  | integer (i : Int)
  | slice (start stop step : Option Int)
  deriving DecidableEq, Repr

/-- The Python argument tuple `self.args` of a constructed value, as a
heterogeneous list (`None` or an integer per slot).  `Integer` stores a
1-tuple, `Slice` a 3-tuple. -/
def NDIndexVal.argsList : NDIndexVal → List (Option Int)
  | .integer i => [some i]
  | .slice a b s => [a, b, s]

/-- A raw (un-wrapped) Python index as produced by the `raw` properties:
either a plain integer (`Integer.raw`, line 70-71) or a built-in slice object
`slice(*self.args)` (`Slice.raw`, line 57-58). -/
inductive RawIndex where
  | int (i : Int)
  | sliceRaw (start stop step : Option Int)
  deriving DecidableEq, Repr

/-- The `raw` property: `Integer.raw` returns `args[0]`; `Slice.raw` returns
`slice(*self.args)`. -/
def NDIndexVal.raw : NDIndexVal → RawIndex
  | .integer i => .int i
  | .slice a b s => .sliceRaw a b s

/-- The length of the Python range `range(lo, hi, s)` (used by the source at
line 36 via `len(r)`), following CPython's computation: zero when the range is
empty in the direction of the step, otherwise `(|hi-lo|-1) // |s| + 1` with
floor division. -/
def rangeLen (lo hi s : Int) : Nat :=
  if 0 < s then
    if lo < hi then ((hi - lo - 1).fdiv s + 1).toNat else 0
  else
    if hi < lo then ((lo - hi - 1).fdiv (-s) + 1).toNat else 0

/-- A raw Python object handed to a constructor, abstracted to what
`operator.index` sees: either integer-convertible, carrying the integer that
`operator.index` returns for it, or not integer-convertible. -/
inductive PyObj where
  | intLike (i : Int)
  | nonInt
  deriving DecidableEq, Repr

/-- `operator.index` (imported at line 1): returns the underlying integer of
an integer-convertible object and raises (BadIndex in the spec's taxonomy)
otherwise. -/
def pyIndex : PyObj → Except Err Int
  | .intLike i => .ok i
  | .nonInt => .error .badIndex

/-- `Integer.__new__` (lines 64-67): coerce the argument through
`operator.index` once and store the result as the 1-tuple `args`. -/
def Integer_new (x : PyObj) : Except Err NDIndexVal :=
  match pyIndex x with
  | .ok i => .ok (.integer i)
  | .error e => .error e

/-- `Slice.__new__` (lines 22-54), over already-integer inputs (`Option Int`
models an absent argument).  Step defaults to `1` and zero step is rejected;
when both endpoints are explicit, a range that is empty without wrap-around is
canonicalized to `(0, 0, 1)`, and a range of length exactly one is returned as
`Integer(r[0]) = Integer(start)`. -/
def Slice_new (start stop step? : Option Int) : Except Err NDIndexVal :=
  let step := step?.getD 1
  if step = 0 then .error .badStep
  else
    match start, stop with
    | some a, some b =>
      if rangeLen a b step = 0 ∧ ((0 < step ∧ a ≤ b) ∨ (step < 0 ∧ b ≤ a)) then
        .ok (.slice (some 0) (some 0) (some 1))
      else if rangeLen a b step = 1 then
        .ok (.integer a)
      else
        .ok (.slice (some a) (some b) (some step))
    | _, _ => .ok (.slice start stop (some step))

/-- Calling `Slice` with a single positional argument.  The source signature
is `def __new__(cls, start, stop=None, step=None)` (line 22), so the one
argument is bound to the `start` parameter. -/
def Slice_new1 (i : Int) : Except Err NDIndexVal :=
  Slice_new (some i) none none

/-- The arithmetic progression `a, a+s, a+2*s, …` of `k` terms: the positions
a raw slice selects once its clamped bounds and length are known. -/
def progression (a s : Int) (k : Nat) : List Int :=
  (List.range k).map (fun i => a + s * i)

/-- Modelled from the spec: the external array library's evaluation of a raw
slice on one axis of length `n` is out of scope of the source; the spec
describes it in §4.3 (`reduce` with shape, step 1: normalize negative
endpoints by adding `n`, clamp to `[0, n]` for a positive step and to
`[-1, n-1]` for a negative step with `-1` a past-the-start sentinel, default
endpoints by step direction) and in the glossary's half-open range.  Returns
the list of selected positions in selection order. -/
def sliceSelect (start? stop? : Option Int) (s : Int) (n : Nat) : List Int :=
  if 0 < s then
    let a := match start? with
      | none => 0
      | some v => if v < 0 then max (v + n) 0 else min v n
    let b := match stop? with
      | none => (n : Int)
      | some v => if v < 0 then max (v + n) 0 else min v n
    progression a s (rangeLen a b s)
  else
    let a := match start? with
      | none => (n : Int) - 1
      | some v => if v < 0 then max (v + n) (-1) else min v ((n : Int) - 1)
    let b := match stop? with
      | none => -1
      | some v => if v < 0 then max (v + n) (-1) else min v ((n : Int) - 1)
    progression a s (rangeLen a b s)

/-- Modelled from the spec: the external array library's evaluation of a raw
integer index on one axis of length `n` is out of scope of the source; per
spec §4.2, `i` is valid iff `-n ≤ i < n`, selecting position `i` when
`i ≥ 0` and `i + n` otherwise, and is out of bounds (`none`) otherwise. -/
def integerSelect (i : Int) (n : Nat) : Option Int :=
  if -(n : Int) ≤ i ∧ i < (n : Int) then
    some (if 0 ≤ i then i else i + n)
  else
    none

/-- The claim C3 sign condition, "the sign of `stop − start` agrees with the
sign of `step`", reading a zero difference as agreeing with either step
direction. -/
def stepSignAgrees (a b s : Int) : Prop :=
  (0 < s → a ≤ b) ∧ (s < 0 → b ≤ a)

instance (a b s : Int) : Decidable (stepSignAgrees a b s) := by
  unfold stepSignAgrees; infer_instance

/-- A model of Python's (opaque, but deterministic and purely
structure-directed) hash of a tuple of integers and `None`s. -/
def tupleHash (l : List (Option Int)) : Int :=
  l.foldl (fun h x => h * 1000003 + (match x with | none => 5381 | some i => 2 * i + 7)) 17

/-- `NDIndex.__hash__` (lines 15-16): `hash(self.args)`, inherited unchanged
by both `Slice` and `Integer`. -/
def NDIndex_hash (v : NDIndexVal) : Int :=
  tupleHash v.argsList

/-- A live Python instance: its identity (fresh at each `object.__new__`,
line 8) together with the stored value.  The base class defines `__hash__`
but no `__eq__` (lines 3-16), so Python's `==` on these instances falls back
to object identity. -/
structure PyInstance where
  objectId : Nat
  value : NDIndexVal
  deriving DecidableEq, Repr

/-- Python `==` between two `NDIndex` instances as the source defines them:
no `__eq__` method exists in the class hierarchy, so `==` is identity. -/
def pyEqNDIndex (a b : PyInstance) : Bool :=
  a.objectId == b.objectId

/-- A call to the `Slice` constructor as an allocation: `object.__new__`
hands back a fresh object (modelled by the caller-supplied fresh identity
ticket) carrying the canonicalized value. -/
def Slice_construct (fresh : Nat) (start stop step? : Option Int) : Except Err PyInstance :=
  (Slice_new start stop step?).map (fun v => ⟨fresh, v⟩)

/-- Claim C1: the claim states that whenever the `Slice` constructor returns
an `Integer` value `v`, the raw slice selects, on every axis length, exactly
the single position `v` selects.  The code violates it: the `len(r) == 1`
branch (lines 49-50) has no wrap-around guard, so `Slice(0, -1, -1)` becomes
`Integer(0)`, yet the raw slice `(0, -1, -1)` selects no positions on an axis
of length 1 while the integer index `0` selects position 0 there. -/
theorem C1_failing_eval :
    Slice_new (some 0) (some (-1)) (some (-1)) = .ok (.integer 0)
    ∧ sliceSelect (some 0) (some (-1)) (-1) 1 = []
    ∧ integerSelect 0 1 = some 0 := by
  refine ⟨rfl, ?_, ?_⟩ <;> decide

/-- Claim C4: the claim (and the repository's own `test_slice_args`) states
that a single positional argument is the stop bound, `Slice(1) =
Slice(None, 1, 1)`.  The source signature `__new__(cls, start, stop=None,
step=None)` (line 22) instead binds it to `start`, so `Slice(1)` has args
`(1, None, 1)`, a different value with different selection behavior. -/
theorem C4_failing_eval :
    Slice_new1 1 = .ok (.slice (some 1) none (some 1))
    ∧ (NDIndexVal.slice (some 1) none (some 1) ≠ .slice none (some 1) (some 1))
    ∧ sliceSelect (some 1) none 1 3 = [1, 2]
    ∧ sliceSelect none (some 1) 1 3 = [0] := by
  refine ⟨rfl, ?_, ?_, ?_⟩ <;> decide

/-- Claim C7: the claim states equality of index values is structural, so two
separate constructions `Slice(0, 5, 2)` are equal.  The source defines
`__hash__` but no `__eq__` (lines 3-16), so Python compares the two fresh
instances by identity: they carry identical variant and args yet compare
unequal. -/
theorem C7_identity_eq :
    Slice_construct 0 (some 0) (some 5) (some 2) = .ok ⟨0, .slice (some 0) (some 5) (some 2)⟩
    ∧ Slice_construct 1 (some 0) (some 5) (some 2) = .ok ⟨1, .slice (some 0) (some 5) (some 2)⟩
    ∧ pyEqNDIndex ⟨0, .slice (some 0) (some 5) (some 2)⟩ ⟨1, .slice (some 0) (some 5) (some 2)⟩ = false
    ∧ (NDIndexVal.slice (some 0) (some 5) (some 2)).argsList
        = (NDIndexVal.slice (some 0) (some 5) (some 2)).argsList := by
  refine ⟨rfl, rfl, ?_, rfl⟩; decide

/-- Claim C6: `Integer(x)` succeeds exactly on integer-convertible inputs,
storing the coerced integer, which `raw` returns unchanged; any other input
fails with BadIndex. -/
theorem C6_integer_new (x : PyObj) :
    (∃ i, pyIndex x = .ok i ∧ Integer_new x = .ok (.integer i)
      ∧ (NDIndexVal.integer i).raw = .int i)
    ∨ (pyIndex x = .error .badIndex ∧ Integer_new x = .error .badIndex) := by
  cases x with
  | intLike i => exact Or.inl ⟨i, rfl, rfl, rfl⟩
  | nonInt => exact Or.inr ⟨rfl, rfl⟩

/-- Claim C9: the hash of a constructed value is the hash of its args tuple
(`NDIndex.__hash__` is `hash(self.args)` and neither variant overrides it),
so any two values with equal args tuples hash identically regardless of
variant. -/
theorem C9_hash_args (v w : NDIndexVal) (h : v.argsList = w.argsList) :
    NDIndex_hash v = tupleHash v.argsList ∧ NDIndex_hash v = NDIndex_hash w := by
  exact ⟨rfl, by rw [NDIndex_hash, NDIndex_hash, h]⟩

/-- Witness for C9 at two (separately written) values with equal args. -/
theorem C9_hash_args_witness :
    NDIndex_hash (.integer 3) = tupleHash (NDIndexVal.integer 3).argsList
    ∧ NDIndex_hash (.integer 3) = NDIndex_hash (.integer 3) :=
  C9_hash_args (.integer 3) (.integer 3) rfl

/-- Claim C10: a zero-width explicit slice, `start = stop`, is canonicalized
to `(0, 0, 1)` for every nonzero step of either sign: the range is empty and
the sign-agreement guard (lines 45-48) is satisfied by the zero difference
under both step directions. -/
theorem C10_zero_width (a s : Int) (hs : s ≠ 0) :
    Slice_new (some a) (some a) (some s) = .ok (.slice (some 0) (some 0) (some 1)) := by
  have h0 : rangeLen a a s = 0 := by
    unfold rangeLen
    rcases lt_or_gt_of_ne hs with h | h
    · rw [if_neg (by omega), if_neg (by omega)]
    · rw [if_pos h, if_neg (by omega)]
  have hcond : rangeLen a a s = 0 ∧ ((0 < s ∧ a ≤ a) ∨ (s < 0 ∧ a ≤ a)) := by
    refine ⟨h0, ?_⟩
    rcases lt_or_gt_of_ne hs with h | h
    · exact Or.inr ⟨h, le_refl a⟩
    · exact Or.inl ⟨h, le_refl a⟩
  simp only [Slice_new, Option.getD_some]
  rw [if_neg hs, if_pos hcond]

/-- Witness for C10 at `start = stop = 7`, `step = -2`. -/
theorem C10_zero_width_witness :
    Slice_new (some 7) (some 7) (some (-2)) = .ok (.slice (some 0) (some 0) (some 1)) :=
  C10_zero_width 7 (-2) (by decide)

/-- Helper: with both endpoints explicit, an empty range whose endpoints sit
on the step's side (lines 45-48 of the source) is canonicalized. -/
theorem slice_new_empty_agree (a b s : Int) (hs : s ≠ 0) (h0 : rangeLen a b s = 0)
    (hag : (0 < s ∧ a ≤ b) ∨ (s < 0 ∧ b ≤ a)) :
    Slice_new (some a) (some b) (some s) = .ok (.slice (some 0) (some 0) (some 1)) := by
  simp only [Slice_new, Option.getD_some]
  rw [if_neg hs, if_pos ⟨h0, hag⟩]

/-- Helper: with both endpoints explicit, an empty range with wrap-around
endpoints is stored unchanged. -/
theorem slice_new_empty_disagree (a b s : Int) (hs : s ≠ 0) (h0 : rangeLen a b s = 0)
    (hag : ¬ ((0 < s ∧ a ≤ b) ∨ (s < 0 ∧ b ≤ a))) :
    Slice_new (some a) (some b) (some s) = .ok (.slice (some a) (some b) (some s)) := by
  simp only [Slice_new, Option.getD_some]
  rw [if_neg hs, if_neg (fun hc => hag hc.2), if_neg (by omega : ¬ rangeLen a b s = 1)]

/-- Claim C3: with both endpoints explicit and natural range length zero, the
constructor canonicalizes to `(0, 0, 1)` exactly when the sign of
`stop − start` agrees with the sign of `step`, and keeps `start` and `stop`
unchanged otherwise. -/
theorem C3_degenerate_empty (a b s : Int) (hs : s ≠ 0) (h0 : rangeLen a b s = 0) :
    (stepSignAgrees a b s →
      Slice_new (some a) (some b) (some s) = .ok (.slice (some 0) (some 0) (some 1)))
    ∧ (¬ stepSignAgrees a b s →
      Slice_new (some a) (some b) (some s) = .ok (.slice (some a) (some b) (some s))) := by
  constructor
  · intro hag
    apply slice_new_empty_agree a b s hs h0
    rcases lt_or_gt_of_ne hs with h | h
    · exact Or.inr ⟨h, hag.2 h⟩
    · exact Or.inl ⟨h, hag.1 h⟩
  · intro hag
    apply slice_new_empty_disagree a b s hs h0
    rintro (⟨hpos, hle⟩ | ⟨hneg, hle⟩) <;> exact hag ⟨fun _ => by omega, fun _ => by omega⟩

/-- Witness for C3: `Slice(3, 3, 1)` is degenerately empty and canonicalizes;
`Slice(5, 3, 1)` is wrap-around-empty and keeps its endpoints. -/
theorem C3_degenerate_empty_witness :
    Slice_new (some 3) (some 3) (some 1) = .ok (.slice (some 0) (some 0) (some 1))
    ∧ Slice_new (some 5) (some 3) (some 1) = .ok (.slice (some 5) (some 3) (some 1)) :=
  ⟨(C3_degenerate_empty 3 3 1 (by decide) (by decide)).1 (by decide),
   (C3_degenerate_empty 5 3 1 (by decide) (by decide)).2 (by decide)⟩

/-- Helper: the wrap-around slice `(2, 1, 1)` selects no positions on any
axis length (both endpoints nonnegative, `start ≥ stop`, positive step). -/
theorem sliceSelect_wraparound_empty (n : Nat) :
    sliceSelect (some 2) (some 1) 1 n = [] := by
  simp only [sliceSelect]
  rw [if_pos (by decide : (0:Int) < 1), if_neg (by decide : ¬ ((2:Int) < 0)),
    if_neg (by decide : ¬ ((1:Int) < 0))]
  have hr : rangeLen (min 2 (n:Int)) (min 1 (n:Int)) 1 = 0 := by
    unfold rangeLen
    rw [if_pos (by decide : (0:Int) < 1), if_neg (by omega)]
  rw [hr]
  rfl

/-- Claim C2 is refuted on the code: `Slice(2, 1, 1)` selects the empty set
of positions for every axis length `n`, yet the constructor keeps its args as
`(2, 1, 1)` because `start > stop` disagrees with the positive step (the
guard at lines 45-48 only canonicalizes sign-agreeing empties). -/
theorem C2_counterexample :
    ¬ (∀ (a b s : Int), s ≠ 0 →
        (∀ n : Nat, sliceSelect (some a) (some b) s n = []) →
        Slice_new (some a) (some b) (some s) = .ok (.slice (some 0) (some 0) (some 1))) := by
  intro hall
  have h : (Except.ok (NDIndexVal.slice (some 2) (some 1) (some 1)) : Except Err NDIndexVal)
      = .ok (.slice (some 0) (some 0) (some 1)) :=
    hall 2 1 1 (by decide) sliceSelect_wraparound_empty
  simp at h

/-- Claim C2 (amended): every `Slice` constructed from an explicit triple
with natural range length zero and the sign of `stop − start` agreeing with
the sign of `step` (degenerately empty; wrap-around empties such as
`(2, 1, 1)` are excluded) is canonicalized at construction to args
`(0, 0, 1)`. -/
theorem C2_amended_empty_canonical (a b s : Int) (hs : s ≠ 0)
    (h0 : rangeLen a b s = 0) (hag : stepSignAgrees a b s) :
    Slice_new (some a) (some b) (some s) = .ok (.slice (some 0) (some 0) (some 1)) := by
  apply slice_new_empty_agree a b s hs h0
  rcases lt_or_gt_of_ne hs with h | h
  · exact Or.inr ⟨h, hag.2 h⟩
  · exact Or.inl ⟨h, hag.1 h⟩

/-- Witness for the amended C2 at the degenerately empty `Slice(3, 3, -1)`. -/
theorem C2_amended_empty_canonical_witness :
    Slice_new (some 3) (some 3) (some (-1)) = .ok (.slice (some 0) (some 0) (some 1)) :=
  C2_amended_empty_canonical 3 3 (-1) (by decide) (by decide) (by decide)

/-- Claim C5: an absent step defaults to `1`; a zero step is rejected with
BadStep; and every successfully constructed `Slice` stores an explicit
nonzero integer step. -/
theorem C5_step_handling (a b s : Option Int) :
    Slice_new a b (some 0) = .error .badStep
    ∧ Slice_new a b none = Slice_new a b (some 1)
    ∧ (∀ st sp stp, Slice_new a b s = .ok (.slice st sp stp) →
        ∃ k, stp = some k ∧ k ≠ 0) := by
  refine ⟨rfl, rfl, ?_⟩
  intro st sp stp h
  rcases a with _ | a'
  · simp only [Slice_new] at h
    by_cases hstep : s.getD 1 = 0
    · rw [if_pos hstep] at h; cases h
    · rw [if_neg hstep] at h
      simp only [Except.ok.injEq, NDIndexVal.slice.injEq] at h
      exact ⟨s.getD 1, h.2.2.symm, hstep⟩
  · rcases b with _ | b'
    · simp only [Slice_new] at h
      by_cases hstep : s.getD 1 = 0
      · rw [if_pos hstep] at h; cases h
      · rw [if_neg hstep] at h
        simp only [Except.ok.injEq, NDIndexVal.slice.injEq] at h
        exact ⟨s.getD 1, h.2.2.symm, hstep⟩
    · simp only [Slice_new] at h
      by_cases hstep : s.getD 1 = 0
      · rw [if_pos hstep] at h; cases h
      · rw [if_neg hstep] at h
        by_cases hc1 : rangeLen a' b' (s.getD 1) = 0
            ∧ ((0 < s.getD 1 ∧ a' ≤ b') ∨ (s.getD 1 < 0 ∧ b' ≤ a'))
        · rw [if_pos hc1] at h
          simp only [Except.ok.injEq, NDIndexVal.slice.injEq] at h
          exact ⟨1, h.2.2.symm, one_ne_zero⟩
        · rw [if_neg hc1] at h
          by_cases hc2 : rangeLen a' b' (s.getD 1) = 1
          · rw [if_pos hc2] at h
            simp at h
          · rw [if_neg hc2] at h
            simp only [Except.ok.injEq, NDIndexVal.slice.injEq] at h
            exact ⟨s.getD 1, h.2.2.symm, hstep⟩

/-- Witness for C5: zero step rejected, default step, and the stored step of
`Slice(0, 5, 2)` is the nonzero `2`. -/
theorem C5_step_handling_witness :
    Slice_new (some 0) (some 5) (some 0) = .error .badStep
    ∧ Slice_new (some 0) (some 5) none = Slice_new (some 0) (some 5) (some 1)
    ∧ ∃ k, (some (2:Int) : Option Int) = some k ∧ k ≠ 0 :=
  ⟨(C5_step_handling (some 0) (some 5) (some 2)).1,
   (C5_step_handling (some 0) (some 5) (some 2)).2.1,
   (C5_step_handling (some 0) (some 5) (some 2)).2.2 (some 0) (some 5) (some 2) rfl⟩

/-- Claim C8: re-running the constructor on the canonical triple stored in a
constructed `Slice` reproduces the identical triple. -/
theorem C8_constructor_idempotent (a b s st sp stp : Option Int)
    (h : Slice_new a b s = .ok (.slice st sp stp)) :
    Slice_new st sp stp = .ok (.slice st sp stp) := by
  rcases a with _ | a'
  · simp only [Slice_new] at h
    by_cases hstep : s.getD 1 = 0
    · rw [if_pos hstep] at h; cases h
    · rw [if_neg hstep] at h
      simp only [Except.ok.injEq, NDIndexVal.slice.injEq] at h
      obtain ⟨h1, h2, h3⟩ := h
      subst h1; subst h2; subst h3
      simp only [Slice_new, Option.getD_some]
      rw [if_neg hstep]
  · rcases b with _ | b'
    · simp only [Slice_new] at h
      by_cases hstep : s.getD 1 = 0
      · rw [if_pos hstep] at h; cases h
      · rw [if_neg hstep] at h
        simp only [Except.ok.injEq, NDIndexVal.slice.injEq] at h
        obtain ⟨h1, h2, h3⟩ := h
        subst h1; subst h2; subst h3
        simp only [Slice_new, Option.getD_some]
        rw [if_neg hstep]
    · simp only [Slice_new] at h
      by_cases hstep : s.getD 1 = 0
      · rw [if_pos hstep] at h; cases h
      · rw [if_neg hstep] at h
        by_cases hc1 : rangeLen a' b' (s.getD 1) = 0
            ∧ ((0 < s.getD 1 ∧ a' ≤ b') ∨ (s.getD 1 < 0 ∧ b' ≤ a'))
        · rw [if_pos hc1] at h
          simp only [Except.ok.injEq, NDIndexVal.slice.injEq] at h
          obtain ⟨h1, h2, h3⟩ := h
          subst h1; subst h2; subst h3
          rfl
        · rw [if_neg hc1] at h
          by_cases hc2 : rangeLen a' b' (s.getD 1) = 1
          · rw [if_pos hc2] at h
            simp at h
          · rw [if_neg hc2] at h
            simp only [Except.ok.injEq, NDIndexVal.slice.injEq] at h
            obtain ⟨h1, h2, h3⟩ := h
            subst h1; subst h2; subst h3
            simp only [Slice_new, Option.getD_some]
            rw [if_neg hstep, if_neg hc1, if_neg hc2]

/-- Witness for C8 at `Slice(5, 3, 1)`, whose stored args are `(5, 3, 1)`. -/
theorem C8_constructor_idempotent_witness :
    Slice_new (some 5) (some 3) (some 1) = .ok (.slice (some 5) (some 3) (some 1)) :=
  C8_constructor_idempotent (some 5) (some 3) (some 1) (some 5) (some 3) (some 1) rfl
